import Mathlib

/-!
Shallow embedding of the market-data ingestion core: the sliding-window
rate limiter, the circuit breaker and the protected client composing them,
the stream-client reconnect logic of the Binance and Kraken variants, the
candle upsert repository, the forward backfill engine, and the feed
manager registration step.

Timestamps and durations are modelled as `Int` (JavaScript millisecond
`number`s, whose subtraction can go negative); counters are `Nat`.
Asynchronous methods are modelled as pure state-transition functions:
each `execute`-style call becomes one step on an explicit state value,
and the wall clock (`Date.now()`) becomes an explicit `now` argument.
-/

/- ───────────────────────── RateLimiter ───────────────────────── -/

/-- Configuration of the sliding-window rate limiter (`RateLimiterConfig`).
`maxQueueSize = 0` models the JavaScript falsy values (`undefined`/`0`),
which the source treats as "no queue bound". -/
structure RateLimiterConfig where
  maxRequests : Nat
  windowMs : Int
  queueRequests : Bool
  maxQueueSize : Nat
deriving DecidableEq

/-- The lazy trim performed at the start of each admission check:
`this.requests.filter((time) => now - time < this.config.windowMs)`. -/
def pruneWindow (windowMs now : Int) (requests : List Int) : List Int :=
  requests.filter (fun t => decide (now - t < windowMs))

/-- Outcome of the synchronous part of `RateLimiter.execute`:
the call is admitted immediately, enqueued, or rejected by one of the two
throw paths (`Rate limit queue full` / `Rate limit exceeded`). -/
inductive RLOutcome
  | admitted
  | queued
  | rejectedQueueFull
  | rejectedRateLimit
deriving DecidableEq

/-- The synchronous admission decision of `RateLimiter.execute`: trim the
window, admit and record `now` if under the ceiling, otherwise enqueue or
reject depending on `queueRequests`/`maxQueueSize`. Returns the new
recorded-timestamps list, the new queue length, and the outcome. -/
def rlExecuteStep (cfg : RateLimiterConfig) (requests : List Int) (queueLen : Nat)
    (now : Int) : List Int × Nat × RLOutcome :=
  if (pruneWindow cfg.windowMs now requests).length < cfg.maxRequests then
    (pruneWindow cfg.windowMs now requests ++ [now], queueLen, .admitted)
  else if cfg.queueRequests then
    if cfg.maxQueueSize ≠ 0 ∧ cfg.maxQueueSize ≤ queueLen then
      (pruneWindow cfg.windowMs now requests, queueLen, .rejectedQueueFull)
    else
      (pruneWindow cfg.windowMs now requests, queueLen + 1, .queued)
  else
    (pruneWindow cfg.windowMs now requests, queueLen, .rejectedRateLimit)

/-- The admitted timestamps of a whole run.  The first list is the sequence
of admission-attempt instants: both direct `execute` calls and the retries
the queue-draining loop performs for queued calls (the drain loop runs the
same trim-count-push admission check, so a queued call that is eventually
admitted appears here as an attempt at its admission instant).  The second
list is the current `this.requests` state.  An attempt whose window is at
the ceiling admits nothing at that instant. -/
def rlAdmitted (cfg : RateLimiterConfig) : List Int → List Int → List Int
  | [], _ => []
  | now :: rest, requests =>
    if (pruneWindow cfg.windowMs now requests).length < cfg.maxRequests then
      now :: rlAdmitted cfg rest (pruneWindow cfg.windowMs now requests ++ [now])
    else
      rlAdmitted cfg rest (pruneWindow cfg.windowMs now requests)

/-- Membership of an admission timestamp `t` in the sliding window anchored
at the instant `N`: the call has already happened (`t ≤ N`) and the
source's strict comparison `now - timestamp < windowMs` holds. -/
def inWindow (windowMs N t : Int) : Bool :=
  decide (t ≤ N ∧ N - t < windowMs)

/- ───────────────────────── CircuitBreaker ───────────────────────── -/

/-- `CircuitBreakerConfig`; `successThreshold` is optional in the source
and defaults to 1 at construction time. -/
structure CircuitBreakerConfig where
  failureThreshold : Nat
  resetTimeoutMs : Int
  successThreshold : Option Nat
deriving DecidableEq

/-- `this.successThreshold = config.successThreshold ?? 1`. -/
def effectiveSuccessThreshold (cfg : CircuitBreakerConfig) : Nat :=
  cfg.successThreshold.getD 1

/-- The three circuit states. -/
inductive CircuitState
  | closed
  | «open»
  | halfOpen
deriving DecidableEq

/-- The mutable fields of the `CircuitBreaker` class. -/
structure BreakerState where
  state : CircuitState
  failures : Nat
  successes : Nat
  lastFailure : Option Int
deriving DecidableEq

/-- Field initialisers of the `CircuitBreaker` class. -/
def initialBreaker : BreakerState :=
  { state := .closed, failures := 0, successes := 0, lastFailure := none }

/-- `CircuitBreaker.onSuccess`: reset failures; while half-open, count the
success and close once the (effective) success threshold is reached. -/
def onSuccess (cfg : CircuitBreakerConfig) (b : BreakerState) : BreakerState :=
  let b1 := { b with failures := 0 }
  if b1.state = CircuitState.halfOpen then
    let b2 := { b1 with successes := b1.successes + 1 }
    if effectiveSuccessThreshold cfg ≤ b2.successes then
      { b2 with state := .closed, successes := 0 }
    else b2
  else b1

/-- `CircuitBreaker.onFailure`: bump the failure count, record the failure
instant, clear successes, and open once `failureThreshold` is reached. -/
def onFailure (cfg : CircuitBreakerConfig) (now : Int) (b : BreakerState) : BreakerState :=
  let b1 := { b with failures := b.failures + 1, lastFailure := some now, successes := 0 }
  if cfg.failureThreshold ≤ b1.failures then { b1 with state := .«open» } else b1

/-- `CircuitBreaker.shouldAttemptReset`.  The source's `!this.lastFailure`
is truthy both for `null` and for the number `0`, so a recorded failure
instant of exactly `0` also allows an immediate reset attempt. -/
def shouldAttemptReset (cfg : CircuitBreakerConfig) (now : Int) (b : BreakerState) : Bool :=
  match b.lastFailure with
  | none => true
  | some lf => if lf = 0 then true else decide (cfg.resetTimeoutMs ≤ now - lf)

/-- Result of the wrapped call: the promise resolves or rejects. -/
inductive CallResult
  | success
  | failure
deriving DecidableEq

/-- One `CircuitBreaker.execute` call at instant `now` whose wrapped
function would produce `r` if invoked.  Returns the new breaker state and
whether the wrapped function was invoked (`false` exactly on the
fail-fast `Circuit breaker is open` throw). -/
def cbExecuteStep (cfg : CircuitBreakerConfig) (now : Int) (r : CallResult)
    (b : BreakerState) : BreakerState × Bool :=
  if b.state = CircuitState.«open» then
    if shouldAttemptReset cfg now b then
      match r with
      | .success => (onSuccess cfg { b with state := .halfOpen }, true)
      | .failure => (onFailure cfg now { b with state := .halfOpen }, true)
    else (b, false)
  else
    match r with
    | .success => (onSuccess cfg b, true)
    | .failure => (onFailure cfg now b, true)

/-- A sequence of `execute` calls that all fail, at the given instants. -/
def runFailures (cfg : CircuitBreakerConfig) (times : List Int) (b : BreakerState) :
    BreakerState :=
  times.foldl (fun st t => (cbExecuteStep cfg t CallResult.failure st).1) b

/- ───────────────────────── ProtectedClient ───────────────────────── -/

/-- `RateLimiter.execute` around an arbitrary synchronous-state inner
action: the inner action runs exactly when the limiter admits the call at
this instant (a queued call defers its inner action to the drain loop,
which is a later step). -/
def rlExecuteWith {σ : Type} (cfg : RateLimiterConfig) (requests : List Int)
    (queueLen : Nat) (now : Int) (inner : σ → σ) (s : σ) :
    (List Int × Nat × RLOutcome) × σ :=
  if (rlExecuteStep cfg requests queueLen now).2.2 = RLOutcome.admitted then
    (rlExecuteStep cfg requests queueLen now, inner s)
  else
    (rlExecuteStep cfg requests queueLen now, s)

/-- The inner action `() => circuitBreaker.execute(fn)` acting on the
breaker state paired with the wrapped function's call count. -/
def cbInner (cfg : CircuitBreakerConfig) (now : Int) (r : CallResult) :
    BreakerState × Nat → BreakerState × Nat :=
  fun p =>
    ((cbExecuteStep cfg now r p.1).1,
      p.2 + (if (cbExecuteStep cfg now r p.1).2 then 1 else 0))

/-- `ProtectedClient.execute`, which is literally
`this.rateLimiter.execute(() => this.circuitBreaker.execute(fn))`. -/
def protectedExecuteStep (rlCfg : RateLimiterConfig) (cbCfg : CircuitBreakerConfig)
    (requests : List Int) (queueLen : Nat) (now : Int) (r : CallResult)
    (b : BreakerState) (fnCalls : Nat) :
    (List Int × Nat × RLOutcome) × BreakerState × Nat :=
  rlExecuteWith rlCfg requests queueLen now (cbInner cbCfg now r) (b, fnCalls)

/- ───────────────────────── Candle persistence ───────────────────────── -/

/-- A candle row; prices and volume are opaque decimals, modelled as `Int`. -/
structure Candle where
  exchange : String
  symbol : String
  timeframe : String
  timestamp : Int
  «open» : Int
  high : Int
  low : Int
  close : Int
  volume : Int
deriving DecidableEq

/-- The natural key (exchange, symbol, timeframe, timestamp) of the
`candles` table's `ON CONFLICT` clause. -/
def sameKey (a b : Candle) : Bool :=
  a.exchange == b.exchange && a.symbol == b.symbol &&
    a.timeframe == b.timeframe && a.timestamp == b.timestamp

/-- The `DO UPDATE SET` arm: keep the stored row's key columns and take
open/high/low/close/volume from the excluded (incoming) row. -/
def applyUpsert (d c : Candle) : Candle :=
  { d with «open» := c.«open», high := c.high, low := c.low,
           close := c.close, volume := c.volume }

/-- One `INSERT ... ON CONFLICT ... DO UPDATE` statement: update the
conflicting row if the key is present, else append the new row.  The
stored table is modelled as the list of rows in insertion order. -/
def upsertOne (store : List Candle) (c : Candle) : List Candle :=
  if store.any (fun d => sameKey d c) then
    store.map (fun d => if sameKey d c then applyUpsert d c else d)
  else
    store ++ [c]

/-- `upsertCandles`: run the prepared statement once per candle, in order. -/
def upsertCandles (store : List Candle) (candles : List Candle) : List Candle :=
  candles.foldl upsertOne store

/- ───────────────────────── Backfill engine ───────────────────────── -/

/-- The supported timeframes. -/
inductive Timeframe
  | m1
  | m5
  | m15
  | h1
  | h4
  | d1
deriving DecidableEq

/-- `TIMEFRAME_MS`: timeframe durations in milliseconds. -/
def TIMEFRAME_MS : Timeframe → Int
  | .m1 => 60 * 1000
  | .m5 => 5 * 60 * 1000
  | .m15 => 15 * 60 * 1000
  | .h1 => 60 * 60 * 1000
  | .h4 => 4 * 60 * 60 * 1000
  | .d1 => 24 * 60 * 60 * 1000

/-- The fixed fresh-backfill horizon `365 * 24 * 60 * 60 * 1000`. -/
def yearMs : Int := 365 * 24 * 60 * 60 * 1000

/-- The environment a backfill run interacts with, for one fixed
(exchange, symbol, timeframe, batchSize): the REST page fetcher keyed by
the `since` cursor (an `Except.error` is a thrown REST exception), the
storage failure oracle for a page upsert (`some msg` is a thrown storage
exception, modelled as rejecting that page atomically), the failure
oracle for the `updateSyncStatus` writes keyed by the status value being
written (`"syncing"`, `"idle"` or `"error"` — the three calls the run
makes; `some msg` is a thrown storage exception), and the newest/oldest
persisted timestamps read at the start of the `try` block (these reads
are modelled infallible: a thrown read would follow the same caught path
as `persistError`). -/
structure BackfillEnv where
  fetch : Int → Except String (List Candle)
  persistError : List Candle → Option String
  syncFail : String → Option String
  newest : Option Int
  oldest : Option Int

/-- `until - 365 * 24 * 60 * 60 * 1000`, or resume from
`newest + TIMEFRAME_MS[timeframe]` when prior data exists.  The source
guards with the truthy test `if (newest)`, so a newest timestamp of
exactly `0` falls back to the one-year horizon. -/
def backfillDefaultStart (env : BackfillEnv) (until_ tf : Int) : Int :=
  match env.newest with
  | some n => if n = 0 then until_ - yearMs else n + tf
  | none => until_ - yearMs

/-- The starting cursor (`fetchSince`).  The source tests `if (!fetchSince)`,
so an explicit `since` of `0` is also treated as absent. -/
def backfillStart (env : BackfillEnv) (since? : Option Int) (until_ tf : Int) : Int :=
  match since? with
  | some s => if s = 0 then backfillDefaultStart env until_ tf else s
  | none => backfillDefaultStart env until_ tf

/-- Trace and final state of the fetch loop of `backfillCandles`. -/
structure LoopOut where
  store : List Candle
  total : Nat
  sinces : List Int
  pages : List (List Candle)
  finalCursor : Int
  error : Option String
  fueled : Bool
deriving DecidableEq

/-- The `while (currentSince < until)` loop: fetch a page at the cursor,
stop on an empty page, upsert the page, advance the cursor to the last
candle's timestamp plus the interval duration.  A thrown fetch or storage
exception ends the run with its message.  `fuel` bounds the number of
iterations modelled (the source loop need not terminate if the venue keeps
returning non-advancing pages); `fueled = false` marks an exhausted bound. -/
def backfillLoop (env : BackfillEnv) (tf until_ : Int) :
    Nat → Int → List Candle → Nat → LoopOut
  | 0, cursor, store, total =>
    { store := store, total := total, sinces := [], pages := [],
      finalCursor := cursor, error := none, fueled := false }
  | fuel + 1, cursor, store, total =>
    if cursor < until_ then
      match env.fetch cursor with
      | .error m =>
        { store := store, total := total, sinces := [cursor], pages := [],
          finalCursor := cursor, error := some m, fueled := true }
      | .ok [] =>
        { store := store, total := total, sinces := [cursor], pages := [],
          finalCursor := cursor, error := none, fueled := true }
      | .ok (c :: cs) =>
        match env.persistError (c :: cs) with
        | some m =>
          { store := store, total := total, sinces := [cursor], pages := [],
            finalCursor := cursor, error := some m, fueled := true }
        | none =>
          let r := backfillLoop env tf until_ fuel
            (((c :: cs).getLast (List.cons_ne_nil c cs)).timestamp + tf)
            (upsertCandles store (c :: cs)) (total + (c :: cs).length)
          { store := r.store, total := r.total, sinces := cursor :: r.sinces,
            pages := (c :: cs) :: r.pages, finalCursor := r.finalCursor,
            error := r.error, fueled := r.fueled }
    else
      { store := store, total := total, sinces := [], pages := [],
        finalCursor := cursor, error := none, fueled := true }

/-- The shape of the returned `BackfillResult` (the fields the claims are
about). -/
structure BFResult where
  success : Bool
  candlesFetched : Nat
  error : Option String
deriving DecidableEq

/-- The `SyncStatus` fields written by the backfill run's final
`updateSyncStatus` call. -/
structure SyncRecord where
  status : String
  errorMessage : Option String
deriving DecidableEq

/-- The fetch-loop run `backfillCandles` performs inside its `try` block:
the loop started at the computed cursor over an empty fetched-store. -/
def backfillRunTrace (env : BackfillEnv) (timeframe : Timeframe)
    (since? : Option Int) (until_ : Int) (fuel : Nat) : LoopOut :=
  backfillLoop env (TIMEFRAME_MS timeframe) until_ fuel
    (backfillStart env since? until_ (TIMEFRAME_MS timeframe)) [] 0

/-- `backfillCandles`.  The initial `updateSyncStatus` marking `syncing`
sits before the `try`, so its exception propagates to the caller
(`Except.error`).  Inside the `try`: compute the starting cursor, run the
fetch loop, then write `idle` — an exception of that final write is still
caught.  The `catch` writes `error` with the captured message and returns
a failure result with `candlesFetched: 0`; the catch-block write itself
is unprotected, so its exception also propagates.  An `Except.ok` result
carries the returned `BackfillResult`, the `SyncStatus` fields finally
written, and the run trace for the theorems. -/
def backfillCandles (env : BackfillEnv) (timeframe : Timeframe)
    (since? : Option Int) (until_ : Int) (fuel : Nat) :
    Except String (BFResult × SyncRecord × LoopOut) :=
  match env.syncFail "syncing" with
  | some m => Except.error m
  | none =>
    let r := backfillRunTrace env timeframe since? until_ fuel
    match r.error with
    | some m =>
      match env.syncFail "error" with
      | some m2 => Except.error m2
      | none =>
        Except.ok ({ success := false, candlesFetched := 0, error := some m },
          { status := "error", errorMessage := some m }, r)
    | none =>
      match env.syncFail "idle" with
      | some m =>
        match env.syncFail "error" with
        | some m2 => Except.error m2
        | none =>
          Except.ok ({ success := false, candlesFetched := 0, error := some m },
            { status := "error", errorMessage := some m }, r)
      | none =>
        Except.ok ({ success := true, candlesFetched := r.total, error := none },
          { status := "idle", errorMessage := none }, r)

/-- The cursor-advance relation between two consecutive fetch cursors of a
run: the earlier fetch returned a non-empty page and the later cursor is
that page's last candle timestamp plus the interval duration. -/
def cursorStep (env : BackfillEnv) (tf : Int) (a b : Int) : Prop :=
  ∃ c cs, env.fetch a = Except.ok (c :: cs) ∧
    b = ((c :: cs).getLast (List.cons_ne_nil c cs)).timestamp + tf

/- ───────────────────────── Stream reconnect ───────────────────────── -/

/-- WebSocket connection status. -/
inductive ConnectionStatus
  | disconnected
  | connecting
  | connected
  | reconnecting
deriving DecidableEq

/-- The reconnect-relevant client state: the attempt counter, the reported
status, and whether a reconnect attempt is currently scheduled. -/
structure ReconnectState where
  reconnectAttempts : Nat
  status : ConnectionStatus
  scheduled : Bool
deriving DecidableEq

/-- `BinanceClient.handleReconnect`, fired on a connection close.
`hasHandler` is the result of the handler lookup for the closed stream's
key; with no handler it returns without reconnecting, past the attempt cap
it reports `disconnected` and stops, otherwise it bumps the counter and
schedules a backoff-delayed reconnect attempt. -/
def binanceHandleReconnect (maxAttempts : Nat) (hasHandler : Bool)
    (s : ReconnectState) : ReconnectState :=
  if !hasHandler then { s with scheduled := false }
  else if maxAttempts ≤ s.reconnectAttempts then
    { s with status := .disconnected, scheduled := false }
  else
    { s with reconnectAttempts := s.reconnectAttempts + 1,
             status := .reconnecting, scheduled := true }

/-- `KrakenClient.handleReconnect`: identical control flow, except the
no-reconnect guard is `this.subscriptions.size === 0`. -/
def krakenHandleReconnect (maxAttempts subscriptionCount : Nat)
    (s : ReconnectState) : ReconnectState :=
  if subscriptionCount = 0 then { s with scheduled := false }
  else if maxAttempts ≤ s.reconnectAttempts then
    { s with status := .disconnected, scheduled := false }
  else
    { s with reconnectAttempts := s.reconnectAttempts + 1,
             status := .reconnecting, scheduled := true }

/- ───────────────────────── FeedManager ───────────────────────── -/

/-- The per-feed configuration fields that carry state (the two optional
callback fields of the source are omitted: they are opaque functions that
`addFeed` only stores). -/
structure FeedConfig where
  symbol : String
  timeframe : Timeframe
  backfillOnStart : Bool
  persistCandles : Bool
deriving DecidableEq

/-- The string form of a timeframe, as used in feed keys. -/
def tfString : Timeframe → String
  | .m1 => "1m"
  | .m5 => "5m"
  | .m15 => "15m"
  | .h1 => "1h"
  | .h4 => "4h"
  | .d1 => "1d"

/-- `FeedManager.feedKey`. -/
def feedKey (symbol : String) (timeframe : Timeframe) : String :=
  symbol ++ ":" ++ tfString timeframe

/-- The `FeedManager` state the claims are about: the feed registry, the
set of active stream keys, and the trace of backfill runs triggered. -/
structure FeedManagerState where
  feeds : List (String × FeedConfig)
  activeStreams : List String
  backfillRuns : List (String × Timeframe)
deriving DecidableEq

/-- `FeedManager.addFeed`: return early if the key is registered, else
store the config and, when `backfillOnStart` is set, run a backfill. -/
def addFeed (st : FeedManagerState) (config : FeedConfig) : FeedManagerState :=
  if (st.feeds.lookup (feedKey config.symbol config.timeframe)).isSome then st
  else
    let st1 := { st with feeds := st.feeds ++ [(feedKey config.symbol config.timeframe, config)] }
    if config.backfillOnStart then
      { st1 with backfillRuns := st1.backfillRuns ++ [(config.symbol, config.timeframe)] }
    else st1

/- ───────────────────── Concrete instances for witnesses ───────────────────── -/

/-- A concrete candle at timestamp 70000 for the backfill witness run. -/
def candleC6 : Candle :=
  { exchange := "binance", symbol := "BTC/USDT", timeframe := "1m",
    timestamp := 70000, «open» := 1, high := 2, low := 0, close := 1, volume := 10 }

/-- A backfill environment with one page at cursor 60100 and empty pages
elsewhere. -/
def envC6 : BackfillEnv :=
  { fetch := fun s => if s = 60100 then Except.ok [candleC6] else Except.ok []
    persistError := fun _ => none
    syncFail := fun _ => none
    newest := some 100
    oldest := none }

/-- A backfill environment whose every fetch throws. -/
def envC7 : BackfillEnv :=
  { fetch := fun _ => Except.error "boom"
    persistError := fun _ => none
    syncFail := fun _ => none
    newest := none
    oldest := none }

/-- A backfill environment whose initial `syncing` status write throws. -/
def envC7sync : BackfillEnv :=
  { fetch := fun _ => Except.ok []
    persistError := fun _ => none
    syncFail := fun s => if s = "syncing" then some "db down" else none
    newest := none
    oldest := none }

/-- A stored candle row for the upsert witness. -/
def c9a : Candle :=
  { exchange := "binance", symbol := "BTC/USDT", timeframe := "1m",
    timestamp := 1000, «open» := 1, high := 2, low := 3, close := 4, volume := 5 }

/-- A second candle with the same natural key but different values. -/
def c9b : Candle :=
  { exchange := "binance", symbol := "BTC/USDT", timeframe := "1m",
    timestamp := 1000, «open» := 6, high := 7, low := 8, close := 9, volume := 10 }

/-- A feed-manager state that already holds the BTC/USDT 1m feed. -/
def stC10 : FeedManagerState :=
  { feeds := [("BTC/USDT:1m",
      { symbol := "BTC/USDT", timeframe := .m1,
        backfillOnStart := false, persistCandles := true })]
    activeStreams := []
    backfillRuns := [] }

/- ═════════════════════════ Theorems ═════════════════════════ -/

/-- Claim C10: when a feed with the same (symbol, timeframe) key is
already registered, `FeedManager.addFeed` returns without changing any
state: the previously stored config is kept, the set of active streams is
unchanged, and no backfill is run, even if the new config sets
`backfillOnStart`. -/
theorem addFeed_existing_noop (st : FeedManagerState) (config : FeedConfig)
    (h : (st.feeds.lookup (feedKey config.symbol config.timeframe)).isSome = true) :
    addFeed st config = st := by
  unfold addFeed
  simp [h]

/-- Witness for `addFeed_existing_noop`: re-adding the registered
BTC/USDT:1m feed with `backfillOnStart := true` changes nothing. -/
theorem addFeed_existing_noop_witness :
    addFeed stC10
      { symbol := "BTC/USDT", timeframe := .m1,
        backfillOnStart := true, persistCandles := false } = stC10 :=
  addFeed_existing_noop stC10
    { symbol := "BTC/USDT", timeframe := .m1,
      backfillOnStart := true, persistCandles := false } (by decide)

/-- Below the attempt cap, the handler bumps the counter and schedules a
reconnect attempt. -/
theorem binanceReconnect_step_active (maxAttempts : Nat) (s : ReconnectState)
    (h : s.reconnectAttempts < maxAttempts) :
    binanceHandleReconnect maxAttempts true s =
      { reconnectAttempts := s.reconnectAttempts + 1, status := .reconnecting,
        scheduled := true } := by
  unfold binanceHandleReconnect
  simp [Nat.not_le.mpr h]

/-- With at least `n + 1 ≤ maxAttempts` drops all failing, the n-th
invocation of the reconnect handler has performed exactly n counter
bumps. -/
theorem binanceReconnect_attempts (maxAttempts : Nat) (s0 : ReconnectState)
    (h0 : s0.reconnectAttempts = 0) :
    ∀ n, n ≤ maxAttempts →
      ((binanceHandleReconnect maxAttempts true)^[n] s0).reconnectAttempts = n := by
  intro n
  induction n with
  | zero => intro _; simpa using h0
  | succ n ih =>
    intro hn
    rw [Function.iterate_succ_apply']
    have ha := ih (Nat.le_of_succ_le hn)
    rw [binanceReconnect_step_active maxAttempts _
      (by rw [ha]; exact Nat.lt_of_succ_le hn), ha]

/-- Once the attempt counter has reached the cap, the handler reports
`disconnected` and schedules nothing. -/
theorem binanceReconnect_capped (maxAttempts : Nat) (s : ReconnectState)
    (h : s.reconnectAttempts = maxAttempts) :
    binanceHandleReconnect maxAttempts true s =
      { reconnectAttempts := maxAttempts, status := .disconnected,
        scheduled := false } := by
  cases s with
  | mk a st sch =>
    simp only at h
    subst h
    unfold binanceHandleReconnect
    simp

/-- After the cap plus one close events (and from then on forever), the
state is exactly `⟨maxAttempts, disconnected, no attempt scheduled⟩`. -/
theorem binance_reconnect_terminal (maxAttempts k : Nat) (s0 : ReconnectState)
    (h0 : s0.reconnectAttempts = 0) :
    (binanceHandleReconnect maxAttempts true)^[maxAttempts + 1 + k] s0 =
      { reconnectAttempts := maxAttempts, status := .disconnected,
        scheduled := false } := by
  have h1 : (binanceHandleReconnect maxAttempts true)^[maxAttempts + 1] s0 =
      { reconnectAttempts := maxAttempts, status := .disconnected,
        scheduled := false } := by
    rw [Function.iterate_succ_apply']
    exact binanceReconnect_capped maxAttempts _
      (binanceReconnect_attempts maxAttempts s0 h0 maxAttempts le_rfl)
  have hfix : binanceHandleReconnect maxAttempts true
      { reconnectAttempts := maxAttempts, status := .disconnected,
        scheduled := false } =
      { reconnectAttempts := maxAttempts, status := .disconnected,
        scheduled := false } := by
    unfold binanceHandleReconnect
    simp
  have hsplit : maxAttempts + 1 + k = k + (maxAttempts + 1) := by omega
  rw [hsplit, Function.iterate_add_apply, h1, Function.iterate_fixed hfix]

/-- Claim C8: for both stream-client variants, under a run in which every
reconnect attempt fails (each reopened connection drops again, so the
close handler fires once per attempt) while a subscription handler remains
registered, after `maxReconnectAttempts` scheduled attempts the connection
status is `disconnected` and no further reconnect attempt is ever
scheduled (the k-th later close event, for every k, leaves the state
`disconnected` with nothing scheduled). -/
theorem streamClient_reconnect_budget (maxAttempts subs k : Nat)
    (s0 : ReconnectState) (hsubs : 0 < subs) (h0 : s0.reconnectAttempts = 0) :
    ((binanceHandleReconnect maxAttempts true)^[maxAttempts + 1 + k] s0).status =
      ConnectionStatus.disconnected ∧
    ((binanceHandleReconnect maxAttempts true)^[maxAttempts + 1 + k] s0).scheduled = false ∧
    ((krakenHandleReconnect maxAttempts subs)^[maxAttempts + 1 + k] s0).status =
      ConnectionStatus.disconnected ∧
    ((krakenHandleReconnect maxAttempts subs)^[maxAttempts + 1 + k] s0).scheduled = false := by
  have hk : krakenHandleReconnect maxAttempts subs =
      binanceHandleReconnect maxAttempts true := by
    funext s
    unfold krakenHandleReconnect binanceHandleReconnect
    simp [Nat.pos_iff_ne_zero.mp hsubs]
  rw [hk, binance_reconnect_terminal maxAttempts k s0 h0]
  exact ⟨rfl, rfl, rfl, rfl⟩

/-- Witness for `streamClient_reconnect_budget` at a cap of 2 attempts and
one registered subscription. -/
theorem streamClient_reconnect_budget_witness :
    ((binanceHandleReconnect 2 true)^[2 + 1 + 1]
        ⟨0, ConnectionStatus.connected, false⟩).status =
      ConnectionStatus.disconnected ∧
    ((binanceHandleReconnect 2 true)^[2 + 1 + 1]
        ⟨0, ConnectionStatus.connected, false⟩).scheduled = false ∧
    ((krakenHandleReconnect 2 1)^[2 + 1 + 1]
        ⟨0, ConnectionStatus.connected, false⟩).status =
      ConnectionStatus.disconnected ∧
    ((krakenHandleReconnect 2 1)^[2 + 1 + 1]
        ⟨0, ConnectionStatus.connected, false⟩).scheduled = false :=
  streamClient_reconnect_budget 2 1 1 ⟨0, ConnectionStatus.connected, false⟩
    (by decide) rfl

/-- Claim C4 counterexample: with `windowMs = 0`, `maxRequests = 1`, and
queueing disabled, a call admitted at instant 5 does not make the next
`execute` call at the same instant rejected — the second call is admitted
as well, because the strict comparison `now - t < 0` holds for no recorded
timestamp, so the trimmed window is always empty. -/
theorem rl_window_zero_counterexample :
    (rlExecuteStep ⟨1, 0, false, 0⟩ [] 0 5).2.2 = RLOutcome.admitted ∧
    (rlExecuteStep ⟨1, 0, false, 0⟩ (rlExecuteStep ⟨1, 0, false, 0⟩ [] 0 5).1
        (rlExecuteStep ⟨1, 0, false, 0⟩ [] 0 5).2.1 5).2.2 = RLOutcome.admitted ∧
    RLOutcome.admitted ≠ RLOutcome.rejectedRateLimit ∧
    RLOutcome.admitted ≠ RLOutcome.rejectedQueueFull := by
  decide

/-- Claim C4 amended: a `windowMs` of 0 degenerates to every call being
admitted, never rejected: whatever was admitted before (at or before the
current instant), the strict window test keeps no timestamp, so any
`execute` call with `maxRequests ≥ 1` is admitted — including further
calls at the very instant of a previous admission. -/
theorem rl_window_zero_always_admits (cfg : RateLimiterConfig)
    (requests : List Int) (queueLen : Nat) (now : Int)
    (hw : cfg.windowMs = 0) (hmax : 1 ≤ cfg.maxRequests)
    (hreq : ∀ t ∈ requests, t ≤ now) :
    (rlExecuteStep cfg requests queueLen now).2.2 = RLOutcome.admitted := by
  have hprune : pruneWindow cfg.windowMs now requests = [] := by
    rw [hw]
    unfold pruneWindow
    rw [List.filter_eq_nil_iff]
    intro t ht
    simp only [decide_eq_true_eq]
    have := hreq t ht
    omega
  unfold rlExecuteStep
  rw [hprune]
  have h0 : ([] : List Int).length < cfg.maxRequests := hmax
  rw [if_pos h0]

/-- Witness for `rl_window_zero_always_admits`: a third call at instant 5
after admissions at instants 3 and 5 is still admitted. -/
theorem rl_window_zero_always_admits_witness :
    (rlExecuteStep ⟨1, 0, false, 0⟩ [3, 5] 0 5).2.2 = RLOutcome.admitted :=
  rl_window_zero_always_admits ⟨1, 0, false, 0⟩ [3, 5] 0 5 rfl (by decide) (by decide)

/-- Claim C2 counterexample: with `failureThreshold = 2` and
`successThreshold = 2`, run failures at instants 10 and 20 (opening the
breaker), a successful trial call at instant 200 (the breaker is half-open
while it executes and stays half-open after it), then one failed call at
instant 210.  The claim requires the failure to move the breaker to
`open`, but the state after it is still `half-open`: the success reset the
failure counter, so the new failure count 1 is below the threshold. -/
theorem cb_halfOpen_failure_counterexample :
    ((cbExecuteStep ⟨2, 100, some 2⟩ 200 CallResult.success
        (cbExecuteStep ⟨2, 100, some 2⟩ 20 CallResult.failure
          (cbExecuteStep ⟨2, 100, some 2⟩ 10 CallResult.failure
            initialBreaker).1).1).1).state = CircuitState.halfOpen ∧
    ((cbExecuteStep ⟨2, 100, some 2⟩ 210 CallResult.failure
      (cbExecuteStep ⟨2, 100, some 2⟩ 200 CallResult.success
        (cbExecuteStep ⟨2, 100, some 2⟩ 20 CallResult.failure
          (cbExecuteStep ⟨2, 100, some 2⟩ 10 CallResult.failure
            initialBreaker).1).1).1).1).state = CircuitState.halfOpen ∧
    CircuitState.halfOpen ≠ CircuitState.«open» := by
  decide

/-- Claim C2 amended: while half-open, a failed call transitions the
breaker to `open` exactly when the incremented failure count reaches
`failureThreshold`, and otherwise leaves it half-open.  Since every
success resets the failure count to zero, a single failure after a
successful trial call in the same half-open episode reopens the breaker
only when `failureThreshold ≤ 1`; without intervening successes the count
retained from the opening episode still meets the threshold, so the
breaker does return to `open` in that case. -/
theorem cb_halfOpen_failure_opens_iff (cfg : CircuitBreakerConfig) (now : Int)
    (b : BreakerState) (h : b.state = CircuitState.halfOpen) :
    ((cbExecuteStep cfg now CallResult.failure b).1.state = CircuitState.«open» ↔
      cfg.failureThreshold ≤ b.failures + 1) ∧
    ((cbExecuteStep cfg now CallResult.failure b).1.state = CircuitState.halfOpen ↔
      b.failures + 1 < cfg.failureThreshold) := by
  have hno : ¬(b.state = CircuitState.«open») := by
    rw [h]
    exact fun hc => CircuitState.noConfusion hc
  unfold cbExecuteStep
  rw [if_neg hno]
  by_cases hth : cfg.failureThreshold ≤ b.failures + 1
  · simp [onFailure, hth, h]
  · simp [onFailure, hth, h]
    omega

/-- Witness for `cb_halfOpen_failure_opens_iff`: with threshold 1 and no
prior failures in the episode, the failed trial call reopens the
breaker. -/
theorem cb_halfOpen_failure_opens_iff_witness :
    ((cbExecuteStep ⟨1, 100, none⟩ 50 CallResult.failure
        ⟨CircuitState.halfOpen, 0, 0, some 10⟩).1.state = CircuitState.«open» ↔
      (1 : Nat) ≤ 0 + 1) ∧
    ((cbExecuteStep ⟨1, 100, none⟩ 50 CallResult.failure
        ⟨CircuitState.halfOpen, 0, 0, some 10⟩).1.state = CircuitState.halfOpen ↔
      0 + 1 < (1 : Nat)) :=
  cb_halfOpen_failure_opens_iff ⟨1, 100, none⟩ 50
    ⟨CircuitState.halfOpen, 0, 0, some 10⟩ rfl

/-- Claim C5: `ProtectedClient.execute(fn)` is definitionally
`rateLimiter.execute(() => circuitBreaker.execute(fn))`, and in every run
where the rate limiter rejects the call (rate limit exceeded or queue
full) the wrapped function is never invoked (its call count is unchanged)
and the circuit breaker's state — including its failure count — is
unchanged by that call. -/
theorem protectedClient_composition_frame (rlCfg : RateLimiterConfig)
    (cbCfg : CircuitBreakerConfig) (requests : List Int) (queueLen : Nat)
    (now : Int) (r : CallResult) (b : BreakerState) (fnCalls : Nat) :
    protectedExecuteStep rlCfg cbCfg requests queueLen now r b fnCalls =
      rlExecuteWith rlCfg requests queueLen now (cbInner cbCfg now r) (b, fnCalls) ∧
    (((protectedExecuteStep rlCfg cbCfg requests queueLen now r b fnCalls).1.2.2 =
        RLOutcome.rejectedRateLimit ∨
      (protectedExecuteStep rlCfg cbCfg requests queueLen now r b fnCalls).1.2.2 =
        RLOutcome.rejectedQueueFull) →
      (protectedExecuteStep rlCfg cbCfg requests queueLen now r b fnCalls).2.1 = b ∧
      (protectedExecuteStep rlCfg cbCfg requests queueLen now r b fnCalls).2.2 = fnCalls) := by
  refine ⟨rfl, ?_⟩
  intro hrej
  have h1 : (protectedExecuteStep rlCfg cbCfg requests queueLen now r b fnCalls).1 =
      rlExecuteStep rlCfg requests queueLen now := by
    unfold protectedExecuteStep rlExecuteWith
    split <;> rfl
  rw [h1] at hrej
  unfold protectedExecuteStep rlExecuteWith
  split
  · rename_i hadm
    rcases hrej with h2 | h2 <;> rw [hadm] at h2 <;> exact absurd h2 (by decide)
  · exact ⟨rfl, rfl⟩

/-- Witness for `protectedClient_composition_frame`: a call at instant 5
with the one-per-window budget already used is rejected, leaving the
initial breaker state and a call count of zero untouched. -/
theorem protectedClient_composition_frame_witness :
    (protectedExecuteStep ⟨1, 1000, false, 0⟩ ⟨1, 100, none⟩ [5] 0 5
        CallResult.failure initialBreaker 0).2.1 = initialBreaker ∧
    (protectedExecuteStep ⟨1, 1000, false, 0⟩ ⟨1, 100, none⟩ [5] 0 5
        CallResult.failure initialBreaker 0).2.2 = 0 :=
  (protectedClient_composition_frame ⟨1, 1000, false, 0⟩ ⟨1, 100, none⟩ [5] 0 5
    CallResult.failure initialBreaker 0).2 (Or.inl (by decide))

/-- The `DO UPDATE` arm keeps the stored row's key columns, so key
matching is unaffected by it. -/
theorem sameKey_applyUpsert (d c e : Candle) :
    sameKey (applyUpsert d c) e = sameKey d e := rfl

/-- The natural key matches itself. -/
theorem sameKey_refl (c : Candle) : sameKey c c = true := by
  simp [sameKey]

/-- Updating a row whose key already equals the incoming row's key yields
exactly the incoming row. -/
theorem applyUpsert_eq (d c : Candle) (h : sameKey d c = true) :
    applyUpsert d c = c := by
  cases d
  cases c
  simp only [sameKey, Bool.and_eq_true, beq_iff_eq] at h
  obtain ⟨⟨⟨h1, h2⟩, h3⟩, h4⟩ := h
  subst h1 h2 h3 h4
  rfl

/-- Two candles with equal keys match the same rows. -/
theorem sameKey_congr (d c1 c2 : Candle) (h : sameKey c1 c2 = true) :
    sameKey d c1 = sameKey d c2 := by
  cases c1
  cases c2
  simp only [sameKey, Bool.and_eq_true, beq_iff_eq] at h
  obtain ⟨⟨⟨h1, h2⟩, h3⟩, h4⟩ := h
  subst h1 h2 h3 h4
  rfl

/-- When the incoming key is already present, the upsert statement is the
conflict-update over the stored rows. -/
theorem upsertOne_eq_map (s : List Candle) (c : Candle)
    (h : s.any (fun d => sameKey d c) = true) :
    upsertOne s c = s.map (fun d => if sameKey d c then applyUpsert d c else d) := by
  unfold upsertOne
  rw [if_pos h]

/-- One upsert statement preserves the number of rows matching a given key
when the key is present, and adds exactly one such row when it is not. -/
theorem upsertOne_countP (s : List Candle) (c e : Candle)
    (hce : sameKey c e = true) :
    (upsertOne s c).countP (fun d => sameKey d e) =
      if s.any (fun d => sameKey d c) then s.countP (fun d => sameKey d e)
      else s.countP (fun d => sameKey d e) + 1 := by
  unfold upsertOne
  by_cases hany : s.any (fun d => sameKey d c) = true
  · rw [if_pos hany, if_pos hany, List.countP_map]
    apply List.countP_congr
    intro d _
    by_cases hdc : sameKey d c = true
    · simp [Function.comp, hdc, sameKey_applyUpsert]
    · simp [Function.comp, hdc]
  · rw [if_neg hany, if_neg hany, List.countP_append]
    simp [List.countP_cons, hce]

/-- Claim C9: for two candles with the same (venue, symbol, interval,
timestamp) natural key, upserting the first and then the second into a
store that held at most one row of that key leaves exactly one stored row
of that key, and any stored row of that key equals the second candle —
the second write wins on every open/high/low/close/volume field. -/
theorem upsertCandles_second_write_wins (store : List Candle) (c1 c2 : Candle)
    (hkey : sameKey c1 c2 = true)
    (hstore : store.countP (fun d => sameKey d c2) ≤ 1) :
    (upsertCandles (upsertCandles store [c1]) [c2]).countP
        (fun d => sameKey d c2) = 1 ∧
    ∀ d ∈ upsertCandles (upsertCandles store [c1]) [c2],
      sameKey d c2 = true → d = c2 := by
  have hsingle : ∀ (s : List Candle) (c : Candle), upsertCandles s [c] = upsertOne s c :=
    fun s c => rfl
  rw [hsingle, hsingle]
  have hfun : (fun d => sameKey d c1) = (fun d => sameKey d c2) :=
    funext (fun d => sameKey_congr d c1 c2 hkey)
  have hcount1 : (upsertOne store c1).countP (fun d => sameKey d c2) = 1 := by
    rw [upsertOne_countP store c1 c2 hkey]
    by_cases hany : store.any (fun d => sameKey d c1) = true
    · rw [if_pos hany]
      have hpos : 0 < store.countP (fun d => sameKey d c2) := by
        rw [← hfun]
        exact List.countP_pos_iff.mpr
          (by simpa using List.any_eq_true.mp hany)
      omega
    · rw [if_neg hany]
      have hz : store.countP (fun d => sameKey d c2) = 0 := by
        rw [← hfun]
        refine List.countP_eq_zero.mpr ?_
        intro a ha hpa
        exact hany (List.any_eq_true.mpr ⟨a, ha, hpa⟩)
      omega
  have hany2 : (upsertOne store c1).any (fun d => sameKey d c2) = true := by
    rw [List.any_eq_true]
    have := List.countP_pos_iff.mp (by omega : 0 < (upsertOne store c1).countP (fun d => sameKey d c2))
    simpa using this
  constructor
  · rw [upsertOne_countP _ c2 c2 (sameKey_refl c2), if_pos hany2]
    exact hcount1
  · intro d hd hPd
    rw [upsertOne_eq_map _ c2 hany2] at hd
    obtain ⟨d0, hd0, rfl⟩ := List.mem_map.mp hd
    by_cases hdc : sameKey d0 c2 = true
    · rw [if_pos hdc]
      exact applyUpsert_eq d0 c2 hdc
    · rw [if_neg hdc] at hPd ⊢
      exact absurd hPd hdc

/-- Witness for `upsertCandles_second_write_wins`: inserting `c9a` then
`c9b` (same key, different values) into an empty store leaves exactly the
row `c9b`. -/
theorem upsertCandles_second_write_wins_witness :
    (upsertCandles (upsertCandles [] [c9a]) [c9b]).countP
        (fun d => sameKey d c9b) = 1 ∧
    ∀ d ∈ upsertCandles (upsertCandles [] [c9a]) [c9b],
      sameKey d c9b = true → d = c9b :=
  upsertCandles_second_write_wins [] c9a c9b (by decide) (by decide)

/-- `runFailures` equation: empty call sequence. -/
theorem runFailures_nil (cfg : CircuitBreakerConfig) (b : BreakerState) :
    runFailures cfg [] b = b := rfl

/-- `runFailures` equation: one failing call then the rest. -/
theorem runFailures_cons (cfg : CircuitBreakerConfig) (t : Int) (ts : List Int)
    (b : BreakerState) :
    runFailures cfg (t :: ts) b =
      runFailures cfg ts ((cbExecuteStep cfg t CallResult.failure b).1) := rfl

/-- A failing call against a closed breaker increments the failure count,
records the instant, clears successes, and opens exactly when the new
count reaches the threshold. -/
theorem cbStep_closed_failure (cfg : CircuitBreakerConfig) (t : Int) (j s : Nat)
    (lf : Option Int) :
    (cbExecuteStep cfg t CallResult.failure ⟨CircuitState.closed, j, s, lf⟩).1 =
      ⟨if cfg.failureThreshold ≤ j + 1 then CircuitState.«open» else CircuitState.closed,
        j + 1, 0, some t⟩ := by
  by_cases hth : cfg.failureThreshold ≤ j + 1
  · simp [cbExecuteStep, onFailure, hth]
  · simp [cbExecuteStep, onFailure, hth]

/-- Strictly below the threshold, a block of failing calls keeps the
breaker closed, accumulates the count, and tracks the latest failure
instant. -/
theorem runFailures_closed_run (cfg : CircuitBreakerConfig) :
    ∀ (ts : List Int) (j : Nat) (lf : Option Int),
      j + ts.length < cfg.failureThreshold →
      runFailures cfg ts ⟨CircuitState.closed, j, 0, lf⟩ =
        ⟨CircuitState.closed, j + ts.length, 0,
          ts.foldl (fun _ t => some t) lf⟩ := by
  intro ts
  induction ts with
  | nil => intro j lf _; simp [runFailures_nil]
  | cons t rest ih =>
    intro j lf hlt
    rw [runFailures_cons, cbStep_closed_failure]
    rw [if_neg (by simp only [List.length_cons] at hlt; omega)]
    rw [ih (j + 1) (some t) (by simp only [List.length_cons] at hlt; omega)]
    simp only [List.length_cons, List.foldl_cons]
    have hnat : j + 1 + rest.length = j + (rest.length + 1) := by omega
    rw [hnat]

/-- A non-empty block of failing calls that brings the count exactly to
the threshold opens the breaker, with the last call's instant recorded. -/
theorem runFailures_opens_run (cfg : CircuitBreakerConfig) :
    ∀ (ts : List Int) (j : Nat) (lf : Option Int) (hne : ts ≠ []),
      j + ts.length = cfg.failureThreshold →
      runFailures cfg ts ⟨CircuitState.closed, j, 0, lf⟩ =
        ⟨CircuitState.«open», cfg.failureThreshold, 0, some (ts.getLast hne)⟩ := by
  intro ts
  induction ts with
  | nil => intro j lf hne _; exact absurd rfl hne
  | cons t rest ih =>
    intro j lf hne hlen
    rw [runFailures_cons, cbStep_closed_failure]
    cases rest with
    | nil =>
      rw [if_pos (by simp only [List.length_cons, List.length_nil] at hlen; omega)]
      rw [runFailures_nil]
      simp only [List.length_cons, List.length_nil] at hlen
      simp only [List.getLast_singleton]
      have : j + 1 = cfg.failureThreshold := by omega
      rw [this]
    | cons r rs =>
      rw [if_neg (by simp only [List.length_cons] at hlen ⊢; omega)]
      rw [ih (j + 1) (some t) (List.cons_ne_nil r rs)
        (by simp only [List.length_cons] at hlen ⊢; omega)]
      rw [List.getLast_cons (List.cons_ne_nil r rs)]

/-- Claim C3 counterexample: the claim quantifies over every
configuration, but with `failureThreshold = 0` the breaker is still
`closed` — not `open` — after exactly `failureThreshold` (that is, zero)
consecutive failed calls, since the state only changes inside `onFailure`
after an actual failing call. -/
theorem cb_threshold_zero_counterexample :
    (runFailures ⟨0, 100, none⟩ [] initialBreaker).state = CircuitState.closed ∧
    CircuitState.closed ≠ CircuitState.«open» := by
  decide

/-- Claim C3 amended: for every configuration with `failureThreshold ≥ 1`,
starting from the closed state with zero failures, after exactly
`failureThreshold` consecutive failed calls (at any positive instants) the
state is `open` — and is still `closed` after every proper prefix of
them — and every `execute` call made while strictly less than
`resetTimeoutMs` has elapsed since the last recorded failure returns with
the breaker state unchanged and without invoking the wrapped function
(second component `false`, so its call count cannot increase).
Instants are required positive because they are `Date.now()` values; the
source's falsy test would treat a recorded failure at instant exactly 0
like a missing one. -/
theorem cb_open_after_threshold_rejects (cfg : CircuitBreakerConfig)
    (times : List Int) (hth : 1 ≤ cfg.failureThreshold)
    (hlen : times.length = cfg.failureThreshold)
    (hpos : ∀ t ∈ times, 0 < t) :
    (runFailures cfg times initialBreaker).state = CircuitState.«open» ∧
    (∀ j, j < times.length →
      (runFailures cfg (times.take j) initialBreaker).state = CircuitState.closed) ∧
    (∀ now : Int, ∀ r : CallResult, ∀ lf : Int,
      (runFailures cfg times initialBreaker).lastFailure = some lf →
      now - lf < cfg.resetTimeoutMs →
      cbExecuteStep cfg now r (runFailures cfg times initialBreaker) =
        (runFailures cfg times initialBreaker, false)) := by
  have hne : times ≠ [] := by
    intro hnil
    rw [hnil] at hlen
    simp at hlen
    omega
  have hrun := runFailures_opens_run cfg times 0 none hne (by omega)
  have hinit : initialBreaker = (⟨CircuitState.closed, 0, 0, none⟩ : BreakerState) := rfl
  refine ⟨?_, ?_, ?_⟩
  · rw [hinit, hrun]
  · intro j hj
    rw [hinit, runFailures_closed_run cfg (times.take j) 0 none
      (by simp only [List.length_take]; omega)]
  · intro now r lf hlf hlt
    rw [hinit, hrun] at hlf ⊢
    simp only [Option.some.injEq] at hlf
    have hlfpos : 0 < lf := by
      rw [← hlf]
      exact hpos _ (List.getLast_mem hne)
    unfold cbExecuteStep
    rw [if_pos rfl]
    have hsar : shouldAttemptReset cfg now
        ⟨CircuitState.«open», cfg.failureThreshold, 0, some (times.getLast hne)⟩ = false := by
      unfold shouldAttemptReset
      rw [hlf]
      show (if lf = 0 then true else decide (cfg.resetTimeoutMs ≤ now - lf)) = false
      rw [if_neg (by omega : ¬(lf = 0))]
      simp only [decide_eq_false_iff_not]
      omega
    rw [hsar]
    simp

/-- Witness for `cb_open_after_threshold_rejects`: threshold 2, failures
at instants 10 and 20, then a call at instant 50 (only 30 ms after the
last failure, below the 100 ms reset timeout) is rejected with the state
unchanged and the wrapped function not invoked. -/
theorem cb_open_after_threshold_rejects_witness :
    (runFailures ⟨2, 100, none⟩ [10, 20] initialBreaker).state = CircuitState.«open» ∧
    cbExecuteStep ⟨2, 100, none⟩ 50 CallResult.success
        (runFailures ⟨2, 100, none⟩ [10, 20] initialBreaker) =
      (runFailures ⟨2, 100, none⟩ [10, 20] initialBreaker, false) := by
  have h := cb_open_after_threshold_rejects ⟨2, 100, none⟩ [10, 20]
    (by decide) (by decide) (by decide)
  exact ⟨h.1, h.2.2 50 CallResult.success 20 (by decide) (by decide)⟩

/-- Every admitted timestamp is one of the attempt instants. -/
theorem rlAdmitted_subset (cfg : RateLimiterConfig) :
    ∀ (calls requests : List Int) (t : Int),
      t ∈ rlAdmitted cfg calls requests → t ∈ calls := by
  intro calls
  induction calls with
  | nil =>
    intro requests t h
    simp [rlAdmitted] at h
  | cons now rest ih =>
    intro requests t h
    simp only [rlAdmitted] at h
    split at h
    · rcases List.mem_cons.mp h with h | h
      · rw [h]
        exact List.mem_cons_self _ _
      · exact List.mem_cons_of_mem now (ih _ t h)
    · exact List.mem_cons_of_mem now (ih _ t h)

/-- Window-count invariant of a run: starting from a recorded-timestamps
state whose entries precede every remaining attempt instant and whose
length is within the ceiling, the admissions the run produces and the
state's own in-window entries jointly stay within the ceiling, for every
anchor instant `N`. -/
theorem rlAdmitted_countP_le (cfg : RateLimiterConfig) (N : Int) :
    ∀ (calls requests : List Int),
      calls.Pairwise (· ≤ ·) →
      (∀ t ∈ requests, ∀ c ∈ calls, t ≤ c) →
      requests.length ≤ cfg.maxRequests →
      (rlAdmitted cfg calls requests).countP (inWindow cfg.windowMs N)
        + requests.countP (inWindow cfg.windowMs N) ≤ cfg.maxRequests := by
  intro calls
  induction calls with
  | nil =>
    intro requests _ _ hlen
    simp only [rlAdmitted, List.countP_nil, Nat.zero_add]
    exact le_trans (List.countP_le_length _) hlen
  | cons now rest ih =>
    intro requests hpair hbound hlen
    have hpc := List.pairwise_cons.mp hpair
    by_cases hN : now ≤ N
    · -- recorded entries that are in the window at `N` survive the trim at `now`
      have hkey : (pruneWindow cfg.windowMs now requests).countP
          (inWindow cfg.windowMs N) = requests.countP (inWindow cfg.windowMs N) := by
        unfold pruneWindow
        rw [List.countP_filter]
        refine List.countP_congr ?_
        intro a ha
        simp only [inWindow, Bool.and_eq_true, decide_eq_true_eq]
        constructor
        · rintro ⟨⟨h1, h2⟩, _⟩
          exact ⟨h1, h2⟩
        · rintro ⟨h1, h2⟩
          refine ⟨⟨h1, h2⟩, ?_⟩
          have hta := hbound a ha now (List.mem_cons_self now rest)
          omega
      simp only [rlAdmitted]
      split
      · rename_i hlt
        rw [List.countP_cons]
        have hbound' : ∀ t ∈ pruneWindow cfg.windowMs now requests ++ [now],
            ∀ c ∈ rest, t ≤ c := by
          intro t ht c hc
          rcases List.mem_append.mp ht with h | h
          · exact le_trans (hbound t (List.mem_of_mem_filter h) now
              (List.mem_cons_self now rest)) (hpc.1 c hc)
          · simp only [List.mem_singleton] at h
            subst h
            exact hpc.1 c hc
        have hlen' : (pruneWindow cfg.windowMs now requests ++ [now]).length ≤
            cfg.maxRequests := by
          simp only [List.length_append, List.length_singleton]
          omega
        have ihh := ih (pruneWindow cfg.windowMs now requests ++ [now])
          hpc.2 hbound' hlen'
        rw [List.countP_append, List.countP_cons, List.countP_nil, hkey] at ihh
        cases hpn : inWindow cfg.windowMs N now <;> simp [hpn] at ihh ⊢ <;> omega
      · rename_i hge
        have hbound' : ∀ t ∈ pruneWindow cfg.windowMs now requests,
            ∀ c ∈ rest, t ≤ c := by
          intro t ht c hc
          exact le_trans (hbound t (List.mem_of_mem_filter ht) now
            (List.mem_cons_self now rest)) (hpc.1 c hc)
        have hlen' : (pruneWindow cfg.windowMs now requests).length ≤ cfg.maxRequests :=
          le_trans (List.length_filter_le _ _) hlen
        have ihh := ih (pruneWindow cfg.windowMs now requests) hpc.2 hbound' hlen'
        rw [hkey] at ihh
        exact ihh
    · -- anchor earlier than every attempt: no admission of this run counts
      have hzero : (rlAdmitted cfg (now :: rest) requests).countP
          (inWindow cfg.windowMs N) = 0 := by
        rw [List.countP_eq_zero]
        intro a ha
        have hmem := rlAdmitted_subset cfg (now :: rest) requests a ha
        have hge : now ≤ a := by
          rcases List.mem_cons.mp hmem with rfl | h
          · exact le_refl a
          · exact hpc.1 a h
        simp only [inWindow, decide_eq_true_eq]
        intro h
        omega
      rw [hzero, Nat.zero_add]
      exact le_trans (List.countP_le_length _) hlen

/-- Claim C1: for every configuration and every chronologically ordered
sequence of admission attempts — direct `execute` calls and the
queue-draining loop's admissions alike, starting from a fresh limiter —
at every anchor instant `N` the number of admitted calls whose admission
timestamps lie within the sliding window of length `windowMs` ending at
`N` (the source's strict test `now - timestamp < windowMs`, restricted to
calls already admitted by `N`) is at most `maxRequests`. -/
theorem rateLimiter_sliding_window_bound (cfg : RateLimiterConfig)
    (calls : List Int) (hmono : calls.Pairwise (· ≤ ·)) (N : Int) :
    (rlAdmitted cfg calls []).countP (inWindow cfg.windowMs N) ≤ cfg.maxRequests := by
  have h := rlAdmitted_countP_le cfg N calls [] hmono (by simp) (by simp)
  simpa using h

/-- Witness for `rateLimiter_sliding_window_bound`: three attempts at
instants 3, 4, 5 against a ceiling of 2 per 1000 ms, anchored at 5. -/
theorem rateLimiter_sliding_window_bound_witness :
    (rlAdmitted ⟨2, 1000, false, 0⟩ [3, 4, 5] []).countP (inWindow 1000 5) ≤ 2 :=
  rateLimiter_sliding_window_bound ⟨2, 1000, false, 0⟩ [3, 4, 5] (by decide) 5

/-- With fuel left and the cursor short of `until`, the first page of the
loop is requested exactly at the cursor. -/
theorem backfillLoop_sinces_head_pos (env : BackfillEnv) (tf until_ : Int)
    (fuel : Nat) (cursor : Int) (store : List Candle) (total : Nat)
    (hfuel : 0 < fuel) (hc : cursor < until_) :
    (backfillLoop env tf until_ fuel cursor store total).sinces.head? = some cursor := by
  cases fuel with
  | zero => omega
  | succ fuel =>
    simp only [backfillLoop]
    rw [if_pos hc]
    cases hf : env.fetch cursor with
    | error m => rfl
    | ok page =>
      cases page with
      | nil => rfl
      | cons c cs =>
        dsimp only
        cases hp : env.persistError (c :: cs) with
        | some m => rfl
        | none => rfl

/-- The loop's fetch trace is empty or starts at the initial cursor. -/
theorem backfillLoop_sinces_nil_or_head (env : BackfillEnv) (tf until_ : Int)
    (fuel : Nat) (cursor : Int) (store : List Candle) (total : Nat) :
    (backfillLoop env tf until_ fuel cursor store total).sinces = [] ∨
    (backfillLoop env tf until_ fuel cursor store total).sinces.head? = some cursor := by
  cases fuel with
  | zero => left; rfl
  | succ fuel =>
    by_cases hc : cursor < until_
    · right
      exact backfillLoop_sinces_head_pos env tf until_ (fuel + 1) cursor store total
        (Nat.succ_pos fuel) hc
    · left
      simp [backfillLoop, hc]

/-- Cursor advance: between any two consecutive fetches of a run, the
earlier one returned a non-empty page and the later cursor is that page's
last candle timestamp plus the interval duration. -/
theorem backfillLoop_sinces_chain (env : BackfillEnv) (tf until_ : Int) :
    ∀ (fuel : Nat) (cursor : Int) (store : List Candle) (total : Nat),
      (backfillLoop env tf until_ fuel cursor store total).sinces.Chain'
        (cursorStep env tf) := by
  intro fuel
  induction fuel with
  | zero =>
    intro cursor store total
    simp [backfillLoop]
  | succ fuel ih =>
    intro cursor store total
    by_cases hc : cursor < until_
    · simp only [backfillLoop]
      rw [if_pos hc]
      cases hf : env.fetch cursor with
      | error m => simp
      | ok page =>
        cases page with
        | nil => simp
        | cons c cs =>
          dsimp only
          cases hp : env.persistError (c :: cs) with
          | some m => simp
          | none =>
            rw [List.chain'_cons']
            constructor
            · intro y hy
              rcases backfillLoop_sinces_nil_or_head env tf until_ fuel
                  (((c :: cs).getLast (List.cons_ne_nil c cs)).timestamp + tf)
                  (upsertCandles store (c :: cs)) (total + (c :: cs).length) with
                hnil | hhead
              · rw [hnil] at hy
                simp at hy
              · rw [hhead] at hy
                simp only [Option.mem_def, Option.some.injEq] at hy
                rw [← hy]
                exact ⟨c, cs, hf, rfl⟩
            · exact ih _ _ _
    · simp [backfillLoop, hc]

/-- A complete, exception-free run stops exactly at the loop guard or at
an empty page: either the final cursor has reached `until`, or the last
fetch of the run returned zero candles. -/
theorem backfillLoop_stop (env : BackfillEnv) (tf until_ : Int) :
    ∀ (fuel : Nat) (cursor : Int) (store : List Candle) (total : Nat),
      (backfillLoop env tf until_ fuel cursor store total).fueled = true →
      (backfillLoop env tf until_ fuel cursor store total).error = none →
      until_ ≤ (backfillLoop env tf until_ fuel cursor store total).finalCursor ∨
      ∃ s, (backfillLoop env tf until_ fuel cursor store total).sinces.getLast? = some s ∧
        env.fetch s = Except.ok [] := by
  intro fuel
  induction fuel with
  | zero =>
    intro cursor store total hfl
    simp [backfillLoop] at hfl
  | succ fuel ih =>
    intro cursor store total hfl herr
    by_cases hc : cursor < until_
    · cases hf : env.fetch cursor with
      | error m =>
        simp only [backfillLoop, if_pos hc, hf] at herr
        simp at herr
      | ok page =>
        cases page with
        | nil =>
          simp only [backfillLoop]
          rw [if_pos hc, hf]
          right
          exact ⟨cursor, by simp, hf⟩
        | cons c cs =>
          cases hp : env.persistError (c :: cs) with
          | some m =>
            simp only [backfillLoop, if_pos hc, hf, hp] at herr
            simp at herr
          | none =>
            simp only [backfillLoop, if_pos hc, hf, hp] at hfl herr ⊢
            rcases ih (((c :: cs).getLast (List.cons_ne_nil c cs)).timestamp + tf)
                (upsertCandles store (c :: cs)) (total + (c :: cs).length) hfl herr with
              hle | ⟨s, hs, hfs⟩
            · exact Or.inl hle
            · cases hsin : (backfillLoop env tf until_ fuel
                  (((c :: cs).getLast (List.cons_ne_nil c cs)).timestamp + tf)
                  (upsertCandles store (c :: cs)) (total + (c :: cs).length)).sinces with
              | nil =>
                rw [hsin] at hs
                simp at hs
              | cons b bs =>
                right
                refine ⟨s, ?_, hfs⟩
                rw [hsin] at hs
                simpa [List.getLast?_cons_cons] using hs
    · simp only [backfillLoop]
      rw [if_neg hc]
      left
      simp only []
      omega

/-- The loop's final store is exactly the initial store with every
successfully persisted page upserted, in order: pages committed before an
exception remain committed. -/
theorem backfillLoop_store_pages (env : BackfillEnv) (tf until_ : Int) :
    ∀ (fuel : Nat) (cursor : Int) (store : List Candle) (total : Nat),
      (backfillLoop env tf until_ fuel cursor store total).store =
        (backfillLoop env tf until_ fuel cursor store total).pages.foldl
          upsertCandles store := by
  intro fuel
  induction fuel with
  | zero => intro cursor store total; rfl
  | succ fuel ih =>
    intro cursor store total
    by_cases hc : cursor < until_
    · simp only [backfillLoop]
      rw [if_pos hc]
      cases hf : env.fetch cursor with
      | error m => rfl
      | ok page =>
        cases page with
        | nil => rfl
        | cons c cs =>
          dsimp only
          cases hp : env.persistError (c :: cs) with
          | some m => rfl
          | none =>
            rw [List.foldl_cons]
            exact ih _ _ _
    · simp only [backfillLoop]
      rw [if_neg hc]
      rfl

/-- Every non-throwing return of `backfillCandles` carries the fetch-loop
run as its trace component. -/
theorem backfillCandles_ok_trace (env : BackfillEnv) (timeframe : Timeframe)
    (since? : Option Int) (until_ : Int) (fuel : Nat)
    (out : BFResult × SyncRecord × LoopOut)
    (h : backfillCandles env timeframe since? until_ fuel = Except.ok out) :
    out.2.2 = backfillRunTrace env timeframe since? until_ fuel := by
  unfold backfillCandles at h
  dsimp only at h
  split at h
  · exact Except.noConfusion h
  · split at h
    · split at h
      · exact Except.noConfusion h
      · simp only [Except.ok.injEq] at h
        rw [← h]
    · split at h
      · split at h
        · exact Except.noConfusion h
        · simp only [Except.ok.injEq] at h
          rw [← h]
      · simp only [Except.ok.injEq] at h
        rw [← h]

/-- Claim C6: for a forward backfill without an explicit `since`: the
starting cursor is `newest + TIMEFRAME_MS[timeframe]` when a (positive)
newest persisted timestamp exists and `until - one year` otherwise; when
the loop runs at all, its first page is requested exactly at that starting
cursor; after each non-empty (persisted) page the next fetch cursor is the
page's last candle timestamp plus the interval duration; a complete,
exception-free run stops exactly when the cursor has reached `until` or
the last page fetched returned zero candles; and every non-throwing
`backfillCandles` return reports exactly this run. -/
theorem backfill_forward_cursor_spec (env : BackfillEnv) (timeframe : Timeframe)
    (until_ : Int) (fuel : Nat) :
    ((∀ n : Int, env.newest = some n → 0 < n →
        backfillStart env none until_ (TIMEFRAME_MS timeframe) =
          n + TIMEFRAME_MS timeframe) ∧
      (env.newest = none →
        backfillStart env none until_ (TIMEFRAME_MS timeframe) = until_ - yearMs)) ∧
    (0 < fuel → backfillStart env none until_ (TIMEFRAME_MS timeframe) < until_ →
      (backfillRunTrace env timeframe none until_ fuel).sinces.head? =
        some (backfillStart env none until_ (TIMEFRAME_MS timeframe))) ∧
    (backfillRunTrace env timeframe none until_ fuel).sinces.Chain'
      (cursorStep env (TIMEFRAME_MS timeframe)) ∧
    ((backfillRunTrace env timeframe none until_ fuel).fueled = true →
      (backfillRunTrace env timeframe none until_ fuel).error = none →
      until_ ≤ (backfillRunTrace env timeframe none until_ fuel).finalCursor ∨
      ∃ s, (backfillRunTrace env timeframe none until_ fuel).sinces.getLast? =
        some s ∧ env.fetch s = Except.ok []) ∧
    (∀ out, backfillCandles env timeframe none until_ fuel = Except.ok out →
      out.2.2 = backfillRunTrace env timeframe none until_ fuel) := by
  refine ⟨⟨?_, ?_⟩, ?_, ?_, ?_, ?_⟩
  · intro n hn hpos
    unfold backfillStart backfillDefaultStart
    rw [hn]
    simp only [if_neg (by omega : ¬(n = 0))]
  · intro hn
    unfold backfillStart backfillDefaultStart
    rw [hn]
  · intro hfuel hlt
    unfold backfillRunTrace
    exact backfillLoop_sinces_head_pos env (TIMEFRAME_MS timeframe) until_ fuel
      (backfillStart env none until_ (TIMEFRAME_MS timeframe)) [] 0 hfuel hlt
  · unfold backfillRunTrace
    exact backfillLoop_sinces_chain env (TIMEFRAME_MS timeframe) until_ fuel _ _ _
  · unfold backfillRunTrace
    exact backfillLoop_stop env (TIMEFRAME_MS timeframe) until_ fuel _ _ _
  · exact fun out h => backfillCandles_ok_trace env timeframe none until_ fuel out h

/-- Witness for `backfill_forward_cursor_spec`: with a newest persisted
timestamp of 100 and a 1m interval, the run resumes at 60100 and its
first fetch is requested there. -/
theorem backfill_forward_cursor_spec_witness :
    backfillStart envC6 none 200000 (TIMEFRAME_MS Timeframe.m1) =
      100 + TIMEFRAME_MS Timeframe.m1 ∧
    (backfillRunTrace envC6 Timeframe.m1 none 200000 5).sinces.head? =
      some (backfillStart envC6 none 200000 (TIMEFRAME_MS Timeframe.m1)) := by
  have h := backfill_forward_cursor_spec envC6 Timeframe.m1 200000 5
  exact ⟨h.1.1 100 rfl (by decide), h.2.1 (by decide) (by decide)⟩

/-- Claim C7 counterexample: `backfillCandles` does not never-throw.  The
initial `updateSyncStatus` marking `syncing` is a storage call placed
before the `try`; in an environment where that write throws `db down`,
the exception propagates to the caller and no result — in particular no
`success = false` result with an `error` SyncStatus — is returned. -/
theorem backfill_sync_write_throws_counterexample :
    backfillCandles envC7sync Timeframe.m1 none 1000 3 =
      Except.error "db down" ∧
    (backfillCandles envC7sync Timeframe.m1 none 1000 3).isOk = false :=
  ⟨rfl, rfl⟩

/-- Claim C7 amended: `backfillCandles` propagates an exception to its
caller only from its own unprotected `SyncStatus` writes — the `syncing`
write before the `try` and the `error` write inside the `catch`.  When
those two writes succeed, every run in which a page fetch or a storage
call of the loop raises an exception returns (without throwing) a result
with `success = false`, `candlesFetched = 0` and the captured message as
its error, writes the `SyncStatus` row with status `error` and that
message, and the final store still holds exactly the pages persisted
before the exception, upserted in order. -/
theorem backfill_error_result_spec (env : BackfillEnv) (timeframe : Timeframe)
    (since? : Option Int) (until_ : Int) (fuel : Nat) (m : String)
    (hsyncing : env.syncFail "syncing" = none)
    (herrw : env.syncFail "error" = none)
    (herr : (backfillRunTrace env timeframe since? until_ fuel).error = some m) :
    backfillCandles env timeframe since? until_ fuel =
      Except.ok ({ success := false, candlesFetched := 0, error := some m },
        { status := "error", errorMessage := some m },
        backfillRunTrace env timeframe since? until_ fuel) ∧
    (backfillRunTrace env timeframe since? until_ fuel).store =
      (backfillRunTrace env timeframe since? until_ fuel).pages.foldl
        upsertCandles [] := by
  constructor
  · unfold backfillCandles
    rw [hsyncing]
    dsimp only
    rw [herr]
    dsimp only
    rw [herrw]
  · unfold backfillRunTrace
    exact backfillLoop_store_pages env (TIMEFRAME_MS timeframe) until_ fuel
      (backfillStart env since? until_ (TIMEFRAME_MS timeframe)) [] 0

/-- Witness for `backfill_error_result_spec`: with all `SyncStatus` writes
succeeding and every fetch throwing `boom`, the run returns a failure
result with an `error` sync status carrying that message. -/
theorem backfill_error_result_spec_witness :
    backfillCandles envC7 Timeframe.m1 none (yearMs + 10) 3 =
      Except.ok ({ success := false, candlesFetched := 0, error := some "boom" },
        { status := "error", errorMessage := some "boom" },
        backfillRunTrace envC7 Timeframe.m1 none (yearMs + 10) 3) ∧
    (backfillRunTrace envC7 Timeframe.m1 none (yearMs + 10) 3).store =
      (backfillRunTrace envC7 Timeframe.m1 none (yearMs + 10) 3).pages.foldl
        upsertCandles [] :=
  backfill_error_result_spec envC7 Timeframe.m1 none (yearMs + 10) 3 "boom"
    rfl rfl (by decide)
